import Mathlib

set_option linter.unusedVariables false

/-!
Verification of the SWE_API core against its specification.

This file gives a shallow embedding, in Lean 4, of the core components of the
repository: the Tarantula fault localizer (`SWE_API/fault_localizer.py`), the
fitness evaluator (`SWE_API/fitness_evaluator.py`), the genetic operators
(`SWE_API/genetic_engine.py`) and the fault-localization reporter
(`SWE_API/reporter.py`), together with theorems settling the behavioural
claims about them.

Modelling conventions:
- Python floats are modelled as exact rationals (`ℚ`); Python's `round(x, n)`
  is modelled as decimal rounding half-to-even (`pyRound`).
- Python dicts that are only ever inserted into are modelled as
  insertion-ordered association lists, mirroring Python's dict iteration
  order.
- Python sets of strings are modelled as `Finset String`.
- Randomness (`random.random`, `random.randint`, `random.sample`,
  `random.choice`, `uuid.uuid4`) is modelled by passing the drawn values in
  explicitly as parameters (an oracle), so every function is deterministic in
  its inputs.
- A Python function that can raise (`ValueError` from `max()` on an empty
  sequence, or from `random.randint(0, -1)`) is modelled as returning an
  `Option`, `none` standing for the raised error.
- Pydantic models are embedded as structures.  Optional "frontend
  compatibility" alias fields that the embedded code never reads or writes
  (they always hold `None`) are omitted from the structures.
-/

/-! ### Decimal rounding, as performed by Python's built-in `round`

Python's `round(x, n)` rounds to `n` decimal digits, ties going to the even
digit.  `roundHalfEven` is the integer-valued round-half-to-even, and
`pyRound n q` rounds `q` to `n` decimal places. -/

/-- Round a rational to the nearest integer, ties to the even integer. -/
def roundHalfEven (q : ℚ) : ℤ :=
  let n := Rat.floor q
  let frac := q - n
  if frac < 1/2 then n
  else if 1/2 < frac then n + 1
  else if n % 2 = 0 then n else n + 1

/-- Model of Python's `round(q, n)`: round to `n` decimal digits. -/
def pyRound (n : ℕ) (q : ℚ) : ℚ :=
  (roundHalfEven (q * 10 ^ n) : ℚ) / 10 ^ n

/-! ### Data model (`SWE_API/models.py`)

Structures embedding the pydantic models used by the localizer, the fitness
evaluator, the genetic engine and the reporter.  Fields the embedded code
never reads (`output`, `error`, `coverage_data`, `execution_time` on
`TestExecutionOutput`; the `Optional` frontend-alias fields, which always
hold `None` on the embedded code paths) are omitted. -/

/-- Embedding of `models.TestResult`: one spectrum row. -/
structure TestResult where
  test_id : String
  status : String
  covered_lines : List Int
deriving DecidableEq, Repr

/-- Embedding of `models.SuspiciousLine`. -/
structure SuspiciousLine where
  file_name : String
  line_number : Int
  line_content : String
  suspiciousness_score : ℚ
  failed_coverage : ℕ
  passed_coverage : ℕ
deriving DecidableEq, Repr

/-- Embedding of `models.FaultLocalizationOutput`. -/
structure FaultLocalizationOutput where
  analysis_id : String
  source_file : String
  total_tests : ℕ
  failed_tests : ℕ
  passed_tests : ℕ
  suspicious_lines : List SuspiciousLine
deriving DecidableEq, Repr

/-- Embedding of `models.CFGEdge`. -/
structure CFGEdge where
  source_node_id : Int
  target_node_id : Int
  label : Option String := none
deriving DecidableEq, Repr

/-- Embedding of `models.CFGOutput` (only the fields the fitness evaluator
reads: `_extract_all_branches` reads `cfg.edges`). -/
structure CFGOutput where
  cfg_id : String
  edges : List CFGEdge
deriving DecidableEq, Repr

/-- Embedding of `models.TestExecutionOutput` (fields read by
`FitnessEvaluator.calculate_fitness`: `execution_status`, `branches_taken`). -/
structure TestExecutionOutput where
  test_id : String
  execution_status : String
  branches_taken : List String
deriving DecidableEq, Repr

/-- Embedding of `models.BranchCoverageResult`. -/
structure BranchCoverageResult where
  test_case_id : String
  branches_covered : List String
  total_branches : ℕ
  coverage_percentage : ℚ
  fitness_score : ℚ
deriving DecidableEq, Repr

/-- Embedding of `models.FitnessEvaluationOutput`. -/
structure FitnessEvaluationOutput where
  cfg_id : String
  evaluated_count : ℕ
  results : List BranchCoverageResult
  best_fitness : ℚ
  avg_fitness : ℚ
deriving DecidableEq, Repr

/-- A gene value.  `genetic_engine.generate_random_gene` produces Python ints
for "int" and "bool" parameter types (booleans are represented as the ints 0
and 1) and floats for "float"/"double", so at runtime a gene is an int or a
float. -/
inductive Gene where
  | gInt (n : ℤ)
  | gFloat (q : ℚ)
deriving DecidableEq, Repr

/-- The runtime type of a gene (Python `isinstance` dispatch). -/
inductive GeneType where
  | intT
  | floatT
deriving DecidableEq, Repr

/-- Runtime type tag of a gene value. -/
def geneType : Gene → GeneType
  | .gInt _ => .intT
  | .gFloat _ => .floatT

/-- Embedding of `models.Chromosome`. -/
structure Chromosome where
  id : String
  genes : List Gene
  fitness_score : ℚ := 0
deriving DecidableEq, Repr

/-! ### Fault localizer (`SWE_API/fault_localizer.py`, class `TarantulaLocalizer`)

The localizer's only state is `self.line_coverage`, a dict mapping a line
number to its passed/failed coverage counts; we model it as an
insertion-ordered association list of `(line, passedCount, failedCount)`
entries. -/

/-- The `line_coverage` matrix: `line -> {"passed": N, "failed": M}`. -/
abbrev CoverageMatrix := List (Int × ℕ × ℕ)

/-- One inner step of `_build_coverage_matrix`: ensure the key exists
(`{"passed": 0, "failed": 0}`) and increment the `"failed"` (if `isFailed`)
or `"passed"` count of `line` by one. -/
def addCover (isFailed : Bool) : CoverageMatrix → Int → CoverageMatrix
  | [], line => [(line, if isFailed then (0, 1) else (1, 0))]
  | e :: rest, line =>
    if e.1 = line then
      (e.1, if isFailed then (e.2.1, e.2.2 + 1) else (e.2.1 + 1, e.2.2)) :: rest
    else
      e :: addCover isFailed rest line

/-- Count the covered lines of one test into the matrix (one iteration of the
outer loops of `_build_coverage_matrix`). -/
def addTest (isFailed : Bool) (m : CoverageMatrix) (t : TestResult) : CoverageMatrix :=
  t.covered_lines.foldl (addCover isFailed) m

/-- Embedding of `TarantulaLocalizer._build_coverage_matrix`: reset the
matrix, count coverage in passed tests, then in failed tests. -/
def build_coverage_matrix (passedTests failedTests : List TestResult) : CoverageMatrix :=
  failedTests.foldl (addTest true) (passedTests.foldl (addTest false) [])

/-- Lookup of one line's counts in the coverage matrix (Python's
`line_num in self.line_coverage` / `self.line_coverage[line_num]`). -/
def findCounts : CoverageMatrix → Int → Option (ℕ × ℕ)
  | [], _ => none
  | e :: rest, line => if e.1 = line then some e.2 else findCounts rest line

/-- Total number of coverage hits of `line` across `tests`: a test whose
`covered_lines` lists a line k times contributes k, exactly as the counting
loops of `_build_coverage_matrix` do. -/
def coverCount (tests : List TestResult) (line : Int) : ℕ :=
  (tests.map (fun t => t.covered_lines.count line)).sum

/-- Add `n` to the failed (if `isFailed`) or passed component of a counts
pair; used to state what the counting loops do to one matrix entry. -/
def bumpCount (isFailed : Bool) (n : ℕ) (pf : ℕ × ℕ) : ℕ × ℕ :=
  if isFailed then (pf.1, pf.2 + n) else (pf.1 + n, pf.2)

/-- Lookup of `source_lines[line_num]` for the optional line-content dict
(`None` maps to `none`). -/
def findLine : Option (List (Int × String)) → Int → Option String
  | none, _ => none
  | some sl, line => (sl.find? (fun e => e.1 == line)).map (·.2)

/-- The Tarantula formula of `_calculate_suspiciousness` for one line:
`%failed / (%failed + %passed)`, each percentage guarded against a zero
total, and a zero denominator giving suspiciousness 0. -/
def suspiciousnessScore (totalPassed totalFailed nPassed nFailed : ℕ) : ℚ :=
  let pctFailed : ℚ := if 0 < totalFailed then (nFailed : ℚ) / totalFailed else 0
  let pctPassed : ℚ := if 0 < totalPassed then (nPassed : ℚ) / totalPassed else 0
  let denominator := pctFailed + pctPassed
  if 0 < denominator then pctFailed / denominator else 0

/-- The `SuspiciousLine` record `_calculate_suspiciousness` builds for one
coverage-matrix entry `(line_num, (n_passed, n_failed))`.  The Python guard
`if source_lines and line_num in source_lines` collapses to a dict lookup:
if the key is found the dict is nonempty, so the truthiness test is
redundant. -/
def mkSuspiciousLine (sourceFile : String) (totalPassed totalFailed : ℕ)
    (sourceLines : Option (List (Int × String))) (e : Int × ℕ × ℕ) : SuspiciousLine :=
  let lineNum := e.1
  let nPassed : ℕ := e.2.1
  let nFailed : ℕ := e.2.2
  let lineContent :=
    match findLine sourceLines lineNum with
    | some s => s
    | none => s!"<line {lineNum}>"
  { file_name := sourceFile
    line_number := lineNum
    line_content := lineContent
    suspiciousness_score := pyRound 4 (suspiciousnessScore totalPassed totalFailed nPassed nFailed)
    failed_coverage := nFailed
    passed_coverage := nPassed }

/-- Embedding of `TarantulaLocalizer._calculate_suspiciousness`.  Iterates the
coverage matrix in insertion order and produces one `SuspiciousLine` record
per covered line. -/
def calculate_suspiciousness (lineCoverage : CoverageMatrix) (sourceFile : String)
    (totalPassed totalFailed : ℕ)
    (sourceLines : Option (List (Int × String))) : List SuspiciousLine :=
  lineCoverage.map (mkSuspiciousLine sourceFile totalPassed totalFailed sourceLines)

/-- The sort of `analyze`: `suspicious_lines.sort(key=..., reverse=True)`,
which is a stable sort, descending by suspiciousness score. -/
def sortSuspicious (lines : List SuspiciousLine) : List SuspiciousLine :=
  lines.mergeSort (fun a b => decide (b.suspiciousness_score ≤ a.suspiciousness_score))

/-- Embedding of `TarantulaLocalizer.analyze`.  The first argument is the
current `self.line_coverage` state; the `analysisId` parameter stands for the
freshly drawn `uuid`.  Returns the new state together with the output. -/
def analyze (lineCoverage : CoverageMatrix) (analysisId : String)
    (sourceFile : String) (testResults : List TestResult)
    (sourceLines : Option (List (Int × String))) :
    CoverageMatrix × FaultLocalizationOutput :=
  let passedTests := testResults.filter (fun t => t.status == "passed")
  let failedTests := testResults.filter (fun t => t.status == "failed")
  if failedTests.isEmpty then
    (lineCoverage,
      { analysis_id := analysisId
        source_file := sourceFile
        total_tests := testResults.length
        failed_tests := 0
        passed_tests := passedTests.length
        suspicious_lines := [] })
  else
    let lineCoverage := build_coverage_matrix passedTests failedTests
    let suspiciousLines :=
      calculate_suspiciousness lineCoverage sourceFile
        passedTests.length failedTests.length sourceLines
    (lineCoverage,
      { analysis_id := analysisId
        source_file := sourceFile
        total_tests := testResults.length
        failed_tests := failedTests.length
        passed_tests := passedTests.length
        suspicious_lines := sortSuspicious suspiciousLines })

/-! ### Fitness evaluator (`SWE_API/fitness_evaluator.py`, class `FitnessEvaluator`)

The evaluator's constructor fixes `all_branches` (from the CFG) and owns the
run-scoped `global_covered_branches` set; we thread the latter explicitly as
state. -/

/-- Embedding of `FitnessEvaluator._extract_all_branches`: the branch id of an
edge is `f"{edge.source_node_id}->{edge.target_node_id}"`. -/
def extract_all_branches (cfg : CFGOutput) : Finset String :=
  (cfg.edges.map (fun edge =>
    let s := edge.source_node_id
    let t := edge.target_node_id
    s!"{s}->{t}")).toFinset

/-- The base coverage score of `FitnessEvaluator.calculate_fitness` (lines
53 and 57): `len(covered_branches) / total_branches`, with an empty branch
universe treated as having one branch. -/
def baseCoverageScore (allBranches : Finset String) (executionResult : TestExecutionOutput) : ℚ :=
  let coveredBranches := executionResult.branches_taken.toFinset
  let totalBranches : ℕ := if allBranches = ∅ then 1 else allBranches.card
  (coveredBranches.card : ℚ) / totalBranches

/-- Embedding of `FitnessEvaluator.calculate_fitness`.  Takes the fixed
branch universe and the current `global_covered_branches` state, returns the
updated state together with the `BranchCoverageResult`. -/
def calculate_fitness (allBranches globalCovered : Finset String)
    (testCaseId : String) (executionResult : TestExecutionOutput) :
    Finset String × BranchCoverageResult :=
  let coveredBranches := executionResult.branches_taken.toFinset
  let newBranches := coveredBranches \ globalCovered
  let globalCovered := globalCovered ∪ newBranches
  let totalBranches : ℕ := if allBranches = ∅ then 1 else allBranches.card
  let coveragePercentage : ℚ := ((coveredBranches.card : ℚ) / totalBranches) * 100
  let fitnessScore : ℚ := (coveredBranches.card : ℚ) / totalBranches
  let fitnessScore :=
    if newBranches ≠ ∅ then fitnessScore + 0.2 * ((newBranches.card : ℚ) / totalBranches)
    else fitnessScore
  let fitnessScore :=
    if executionResult.execution_status = "failed" then fitnessScore - 0.1
    else fitnessScore
  let fitnessScore := max 0 (min 1 fitnessScore)
  -- `list(covered_branches)` lists a Python set in an unspecified order; we
  -- take the first-occurrence order of the underlying list as representative.
  (globalCovered,
    { test_case_id := testCaseId
      branches_covered := executionResult.branches_taken.dedup
      total_branches := totalBranches
      coverage_percentage := pyRound 2 coveragePercentage
      fitness_score := pyRound 4 fitnessScore })

/-- Python's `max` over a nonempty list of floats (first maximal element). -/
def listMaxQ (x : ℚ) (xs : List ℚ) : ℚ :=
  xs.foldl (fun acc v => if acc < v then v else acc) x

/-- The loop body of `evaluate_population`: one `calculate_fitness` call,
threading the global-coverage state and appending the result. -/
def populationStep (allBranches : Finset String)
    (acc : Finset String × List BranchCoverageResult)
    (p : String × TestExecutionOutput) : Finset String × List BranchCoverageResult :=
  let r := calculate_fitness allBranches acc.1 p.1 p.2
  (r.1, acc.2 ++ [r.2])

/-- Embedding of `FitnessEvaluator.evaluate_population`: evaluate each
`(test_case_id, execution_result)` pair in order, threading the
global-coverage state, then aggregate best and average fitness. -/
def evaluate_population (allBranches globalCovered : Finset String)
    (cfgId : String) (testResults : List (String × TestExecutionOutput)) :
    Finset String × FitnessEvaluationOutput :=
  let folded := testResults.foldl (populationStep allBranches) (globalCovered, [])
  let results := folded.2
  let fitnessScores := results.map (·.fitness_score)
  let bestFitness : ℚ :=
    match fitnessScores with
    | [] => 0
    | x :: xs => listMaxQ x xs
  let avgFitness : ℚ :=
    match fitnessScores with
    | [] => 0
    | _ :: _ => fitnessScores.sum / (fitnessScores.length : ℚ)
  (folded.1,
    { cfg_id := cfgId
      evaluated_count := results.length
      results := results
      best_fitness := pyRound 4 bestFitness
      avg_fitness := pyRound 4 avgFitness })

/-- One observable evaluator call, for stating run-wide invariants: either a
single `calculate_fitness` call or an `evaluate_population` call. -/
inductive EvaluatorCall where
  | single (testCaseId : String) (executionResult : TestExecutionOutput)
  | population (cfgId : String) (testResults : List (String × TestExecutionOutput))

/-- The effect of one evaluator call on the `global_covered_branches` state. -/
def runEvaluatorCall (allBranches : Finset String) (globalCovered : Finset String) :
    EvaluatorCall → Finset String
  | .single id e => (calculate_fitness allBranches globalCovered id e).1
  | .population cid ts => (evaluate_population allBranches globalCovered cid ts).1

/-! ### Genetic operators (`SWE_API/genetic_engine.py`)

Randomness is passed in explicitly: the tournament's sampled competitors, the
crossover cut point and fresh identifier, and a `MutationOracle` bundling
every random draw `mutate` makes. -/

/-- Python's `max(competitors, key=lambda c: c.fitness_score)`: the first
element attaining the maximal fitness; raises `ValueError` (here `none`) on
an empty sequence. -/
def maxByFitness : List Chromosome → Option Chromosome
  | [] => none
  | c :: rest =>
    some (rest.foldl (fun acc x => if acc.fitness_score < x.fitness_score then x else acc) c)

/-- Embedding of `genetic_engine.tournament_selection`.  `sample` stands for
`random.sample(population, k=min(3, len(population)))`; callers constrain it
to be a `min 3 (population.length)`-sized subset of the population.  The
`max` over the competitors raises (`none`) exactly when the sample is empty. -/
def tournament_selection (population : List Chromosome) (sample : List Chromosome) :
    Option Chromosome :=
  maxByFitness sample

/-- The constraint `random.sample(population, k=min(3, len(population)))`
places on the drawn sample. -/
def validSample (population sample : List Chromosome) : Prop :=
  sample.length = min 3 population.length ∧ ∀ c ∈ sample, c ∈ population

/-- Embedding of `genetic_engine.crossover`.  `newId` stands for the fresh
`uuid`; `point` stands for `random.randint(1, len(p1.genes) - 1)`.  With
fewer than two genes in `p1` it returns `p1` unchanged; it performs no arity
validation on `p2`. -/
def crossover (newId : String) (point : ℕ) (p1 p2 : Chromosome) : Chromosome :=
  if p1.genes.length < 2 then p1
  else
    { id := newId
      genes := p1.genes.take point ++ p2.genes.drop point
      fitness_score := 0 }

/-- Every random draw made by one call of `genetic_engine.mutate`:
`eq_rand`/`bnd_rand`/`gene_rand i` are the `random.random()` draws gating the
equal-genes special mutation, the boundary special mutation and the standard
per-gene mutation; the index, strategy and jitter fields are the
corresponding `random.sample`/`random.randint`/`random.choice`/
`random.uniform` draws. -/
structure MutationOracle where
  eq_rand : ℚ
  eq_idx1 : ℕ
  eq_idx2 : ℕ
  bnd_rand : ℚ
  bnd_idx : ℕ
  bnd_choice : Fin 5
  gene_rand : ℕ → ℚ
  int_strategy : ℕ → Fin 4
  int_small : ℕ → ℤ
  int_large : ℕ → ℤ
  int_bchoice : ℕ → Fin 4
  float_strategy : ℕ → Fin 3
  float_small : ℕ → ℚ
  float_large : ℕ → ℚ
  float_bchoice : ℕ → Fin 4

/-- The boundary value set of the boundary special mutation:
`[0, -1, 1, -100, 100]` (Python ints). -/
def boundaryValue : Fin 5 → ℤ
  | 0 => 0
  | 1 => -1
  | 2 => 1
  | 3 => -100
  | 4 => 100

/-- Standard mutation of one integer gene (`random.choice(['small', 'large',
'sign_flip', 'boundary'])` and the subsequent update). -/
def mutateIntGene (o : MutationOracle) (i : ℕ) (val : ℤ) : ℤ :=
  match o.int_strategy i with
  | 0 => val + o.int_small i
  | 1 => val + o.int_large i
  | 2 => -val
  | 3 =>
    match o.int_bchoice i with
    | 0 => 0
    | 1 => -1
    | 2 => 1
    | 3 => val

/-- Standard mutation of one float gene (`random.choice(['small', 'large',
'boundary'])` and the subsequent update, jitters rounded to 2 decimals). -/
def mutateFloatGene (o : MutationOracle) (i : ℕ) (val : ℚ) : ℚ :=
  match o.float_strategy i with
  | 0 => pyRound 2 (val + o.float_small i)
  | 1 => pyRound 2 (val + o.float_large i)
  | 2 =>
    match o.float_bchoice i with
    | 0 => 0
    | 1 => -1
    | 2 => 1
    | 3 => val

/-- The standard per-gene mutation loop of `mutate` (`for i in
range(len(chromosome.genes))`).  The `elif isinstance(val, bool) or val in
[0, 1]` arm of the Python code is unreachable for the gene values this
system creates: ints (including the 0/1 ints standing for booleans) are
caught by the integer arm and floats by the float arm. -/
def standardStep (o : MutationOracle) (rate : ℚ) (gs : List Gene) (i : ℕ) : List Gene :=
  if o.gene_rand i < rate then
    match gs.getD i (Gene.gInt 0) with
    | .gInt v => gs.set i (.gInt (mutateIntGene o i v))
    | .gFloat v => gs.set i (.gFloat (mutateFloatGene o i v))
  else gs

/-- The whole standard mutation loop. -/
def standardMutation (o : MutationOracle) (rate : ℚ) (genes : List Gene) : List Gene :=
  (List.range genes.length).foldl (standardStep o rate) genes

/-- Embedding of `genetic_engine.mutate`.  In-place mutation is modelled by
returning the updated chromosome (same `id`, same `fitness_score`).  The
boundary special mutation draws `random.randint(0, len(genes) - 1)`, which
raises `ValueError` (modelled as `none`) on an empty gene list; its
`isinstance(val, (int, float)) and not isinstance(val, bool)` guard is
always true for the int/float gene values this system creates, so firing it
always overwrites position `bnd_idx` with an integer boundary value and
returns, skipping the standard mutation. -/
def mutate (o : MutationOracle) (c : Chromosome) (rate : ℚ) : Option Chromosome :=
  let genes := c.genes
  let genes :=
    if 2 ≤ genes.length ∧ o.eq_rand < 0.3 then
      genes.set o.eq_idx2 (genes.getD o.eq_idx1 (Gene.gInt 0))
    else genes
  if o.bnd_rand < 0.1 then
    if genes.length = 0 then none
    else some { c with genes := genes.set o.bnd_idx (Gene.gInt (boundaryValue o.bnd_choice)) }
  else
    some { c with genes := standardMutation o rate genes }

/-! ### Reporter (`SWE_API/reporter.py`, class `FaultLocalizationReporter`)

Each recommendation string built by `_generate_recommendations` is modelled
as one constructor of `Recommendation` carrying exactly the data interpolated
into the corresponding f-string; distinct rules always produce distinct
constructors. -/

/-- One recommendation string of `_generate_recommendations`, by rule:
`noSuspicious` = "No suspicious lines identified. ...";
`highPriority line score` = "HIGH PRIORITY: Line {line} has very high
suspiciousness ({score:.2f}). ...";
`mediumPriority line score` = "MEDIUM PRIORITY: Line {line} shows moderate
suspiciousness ({score:.2f}). ...";
`lowSuspiciousness line score` = "LOW SUSPICIOUSNESS: Top line ({line}) has
score {score:.2f}. ...";
`onlyInFailed count lines` = "Found {count} line(s) ONLY executed in failed
tests. These are highly suspect: {lines}";
`clustered lo hi` = "Suspicious lines appear clustered around lines
{lo}-{hi}. The fault may be in this code region.";
`fewTests total` = "Only {total} test(s) available. ...";
`noPassingTests` = "WARNING: No passing tests. ...";
`skewedSuite failed passed` = "Test suite is heavily skewed ({failed} failed
vs {passed} passed). ...". -/
inductive Recommendation where
  | noSuspicious
  | highPriority (line : Int) (score : ℚ)
  | mediumPriority (line : Int) (score : ℚ)
  | lowSuspiciousness (line : Int) (score : ℚ)
  | onlyInFailed (count : ℕ) (lines : List Int)
  | clustered (lo hi : Int)
  | fewTests (total : ℕ)
  | noPassingTests
  | skewedSuite (failed passed : ℕ)
deriving DecidableEq, Repr

/-- Embedding of `models.ReportOutput` (`recommendations` is always the list
built by `_generate_recommendations`, never `None`, on the embedded path). -/
structure ReportOutput where
  report_id : String
  generated_at : String
  analysis_id : String
  summary : String
  top_suspicious_lines : List SuspiciousLine
  recommendations : List Recommendation
deriving DecidableEq, Repr

/-- Python's `min` over a list of ints (callers guarantee nonemptiness; the
value 0 for the empty list is never used). -/
def listMinZ : List Int → Int
  | [] => 0
  | x :: xs => xs.foldl min x

/-- Python's `max` over a list of ints (callers guarantee nonemptiness). -/
def listMaxZ : List Int → Int
  | [] => 0
  | x :: xs => xs.foldl max x

/-- Embedding of `FaultLocalizationReporter._are_lines_clustered`: false for
fewer than two line numbers, otherwise true iff the maximal gap between
consecutive sorted line numbers is at most the threshold (default 5). -/
def are_lines_clustered (lineNumbers : List Int) (threshold : Int := 5) : Bool :=
  if lineNumbers.length < 2 then false
  else
    let sortedLines := lineNumbers.mergeSort (fun a b => decide (a ≤ b))
    let gaps := (sortedLines.zip sortedLines.tail).map (fun p => p.2 - p.1)
    decide (listMaxZ gaps ≤ threshold)

/-- Recommendation 1 of `_generate_recommendations`: classify the single
most suspicious line as HIGH (score > 0.8), MEDIUM (score > 0.5) or LOW. -/
def priorityRule (topLine : SuspiciousLine) : List Recommendation :=
  if 0.8 < topLine.suspiciousness_score then
    [.highPriority topLine.line_number topLine.suspiciousness_score]
  else if 0.5 < topLine.suspiciousness_score then
    [.mediumPriority topLine.line_number topLine.suspiciousness_score]
  else
    [.lowSuspiciousness topLine.line_number topLine.suspiciousness_score]

/-- Recommendation 2 of `_generate_recommendations`: lines executed only in
failed tests (up to 3 shown). -/
def onlyInFailedRule (topSuspicious : List SuspiciousLine) : List Recommendation :=
  let onlyInFailed := topSuspicious.filter
    (fun l => l.passed_coverage == 0 && decide (0 < l.failed_coverage))
  if onlyInFailed.isEmpty then []
  else [.onlyInFailed onlyInFailed.length ((onlyInFailed.take 3).map (·.line_number))]

/-- Recommendation 3 of `_generate_recommendations`: clustered suspicious
lines, emitted only when there are at least 3 top lines and the top 5 lines'
numbers pass `_are_lines_clustered`. -/
def clusteredRule (topSuspicious : List SuspiciousLine) : List Recommendation :=
  if 3 ≤ topSuspicious.length then
    let lineNums := (topSuspicious.take 5).map (·.line_number)
    if are_lines_clustered lineNums then
      [.clustered (listMinZ lineNums) (listMaxZ lineNums)]
    else []
  else []

/-- Recommendation 4 of `_generate_recommendations`: small test suite. -/
def fewTestsRule (analysis : FaultLocalizationOutput) : List Recommendation :=
  if analysis.total_tests < 5 then [.fewTests analysis.total_tests] else []

/-- Recommendation 5 of `_generate_recommendations`: no passing tests, or a
failed/passed ratio above 2:1. -/
def balanceRule (analysis : FaultLocalizationOutput) : List Recommendation :=
  if analysis.passed_tests = 0 then [.noPassingTests]
  else if analysis.passed_tests * 2 < analysis.failed_tests then
    [.skewedSuite analysis.failed_tests analysis.passed_tests]
  else []

/-- Embedding of `FaultLocalizationReporter._generate_recommendations`. -/
def generate_recommendations (analysis : FaultLocalizationOutput)
    (topSuspicious : List SuspiciousLine) : List Recommendation :=
  match topSuspicious with
  | [] => [.noSuspicious]
  | topLine :: _ =>
    priorityRule topLine ++ onlyInFailedRule topSuspicious ++
      clusteredRule topSuspicious ++ fewTestsRule analysis ++ balanceRule analysis

/-- Embedding of `FaultLocalizationReporter._generate_summary`: the
pipe-delimited summary string. -/
def generate_summary (analysis : FaultLocalizationOutput) (numReported : ℕ) : String :=
  let sourceFile := analysis.source_file
  let totalTests := analysis.total_tests
  let passedTests := analysis.passed_tests
  let failedTests := analysis.failed_tests
  let numSuspicious := analysis.suspicious_lines.length
  let summaryParts : List String :=
    [s!"Fault Localization Report for: {sourceFile}",
     s!"Total tests executed: {totalTests}",
     s!"Passed: {passedTests}, Failed: {failedTests}",
     s!"Suspicious lines identified: {numSuspicious}",
     s!"Top {numReported} lines reported below"]
  let summaryParts :=
    if analysis.failed_tests = 0 then
      summaryParts ++ ["No test failures detected - no fault localization needed."]
    else if analysis.suspicious_lines.length = 0 then
      summaryParts ++ ["No executable lines covered by tests."]
    else summaryParts
  String.intercalate " | " summaryParts

/-- Embedding of `FaultLocalizationReporter.generate_report`.  `reportId`
stands for the fresh `uuid` and `timestamp` for `datetime.now()`. -/
def generate_report (reportId timestamp : String)
    (analysis : FaultLocalizationOutput) (topN : ℕ := 10) : ReportOutput :=
  let topSuspicious := analysis.suspicious_lines.take topN
  { report_id := reportId
    generated_at := timestamp
    analysis_id := analysis.analysis_id
    summary := generate_summary analysis topSuspicious.length
    top_suspicious_lines := topSuspicious
    recommendations := generate_recommendations analysis topSuspicious }

/-! ### Lemmas about the decimal rounding -/

theorem ratFloor_eq_floor (q : ℚ) : (Rat.floor q : ℤ) = ⌊q⌋ := by
  rw [Rat.floor_def, Rat.floor_def']

theorem roundHalfEven_nonneg {q : ℚ} (h : 0 ≤ q) : 0 ≤ roundHalfEven q := by
  unfold roundHalfEven
  have hf : (0 : ℤ) ≤ Rat.floor q := by
    rw [ratFloor_eq_floor]; exact Int.floor_nonneg.mpr h
  dsimp only
  split
  · exact hf
  · split
    · omega
    · split
      · exact hf
      · omega

theorem roundHalfEven_le {q : ℚ} {m : ℤ} (h : q ≤ (m : ℚ)) :
    roundHalfEven q ≤ m := by
  have hfl : Rat.floor q ≤ m := by
    rw [ratFloor_eq_floor]
    calc ⌊q⌋ ≤ ⌊(m : ℚ)⌋ := Int.floor_le_floor h
    _ = m := Int.floor_intCast m
  have hstep : ¬ (q - (Rat.floor q : ℚ) < 1/2) → Rat.floor q + 1 ≤ m := by
    intro hge
    rcases lt_or_eq_of_le hfl with hlt | heq
    · omega
    · exfalso
      apply hge
      have : q ≤ (Rat.floor q : ℚ) := by rw [heq]; exact h
      have : q - (Rat.floor q : ℚ) ≤ 0 := by linarith
      linarith
  unfold roundHalfEven
  dsimp only
  split
  · exact hfl
  · next hge =>
    split
    · exact hstep hge
    · split
      · exact hfl
      · exact hstep hge

theorem pyRound_nonneg {n : ℕ} {q : ℚ} (h : 0 ≤ q) : 0 ≤ pyRound n q := by
  unfold pyRound
  apply div_nonneg
  · exact_mod_cast roundHalfEven_nonneg (by positivity)
  · positivity

theorem pyRound_le_one {n : ℕ} {q : ℚ} (h : q ≤ 1) : pyRound n q ≤ 1 := by
  unfold pyRound
  rw [div_le_one (by positivity)]
  have hle : q * 10 ^ n ≤ ((10 ^ n : ℤ) : ℚ) := by
    push_cast
    calc q * 10 ^ n ≤ 1 * 10 ^ n := by
          apply mul_le_mul_of_nonneg_right h (by positivity)
    _ = 10 ^ n := one_mul _
  have := roundHalfEven_le hle
  exact_mod_cast this

theorem roundHalfEven_intCast (m : ℤ) : roundHalfEven (m : ℚ) = m := by
  unfold roundHalfEven
  have h1 : Rat.floor ((m : ℚ)) = m := by
    rw [ratFloor_eq_floor]; exact Int.floor_intCast m
  dsimp only
  rw [h1]
  rw [show ((m : ℚ) - (m : ℚ)) = 0 by ring]
  norm_num

theorem pyRound_zero (n : ℕ) : pyRound n 0 = 0 := by
  unfold pyRound
  rw [show ((0 : ℚ) * 10 ^ n) = (((0 : ℤ) : ℚ)) by push_cast; ring]
  rw [roundHalfEven_intCast]
  norm_num

theorem pyRound_one (n : ℕ) : pyRound n 1 = 1 := by
  unfold pyRound
  rw [show ((1 : ℚ) * 10 ^ n) = (((10 ^ n : ℤ) : ℚ)) by push_cast; ring]
  rw [roundHalfEven_intCast]
  rw [div_eq_one_iff_eq (by positivity)]
  push_cast
  ring

/-! ### Claim C2: fitness clamp property -/

/-- C2: for every execution outcome (any coverage set, any novelty state,
any execution status), the fitness score returned by
`FitnessEvaluator.calculate_fitness` lies in `[0, 1]`. -/
theorem fitness_score_in_unit_interval
    (allBranches globalCovered : Finset String) (testCaseId : String)
    (executionResult : TestExecutionOutput) :
    0 ≤ (calculate_fitness allBranches globalCovered testCaseId executionResult).2.fitness_score ∧
    (calculate_fitness allBranches globalCovered testCaseId executionResult).2.fitness_score ≤ 1 := by
  unfold calculate_fitness
  dsimp only
  constructor
  · exact pyRound_nonneg (le_max_left _ _)
  · exact pyRound_le_one (max_le (by norm_num) (min_le_left _ _))

/-! ### Claim C3: the global coverage set never shrinks -/

theorem global_subset_calculate_fitness (allBranches g : Finset String)
    (id : String) (e : TestExecutionOutput) :
    g ⊆ (calculate_fitness allBranches g id e).1 := by
  unfold calculate_fitness
  dsimp only
  exact Finset.subset_union_left

theorem global_subset_populationFold (allBranches : Finset String)
    (ts : List (String × TestExecutionOutput))
    (acc : Finset String × List BranchCoverageResult) :
    acc.1 ⊆ (ts.foldl (populationStep allBranches) acc).1 := by
  induction ts generalizing acc with
  | nil => exact subset_rfl
  | cons p ts ih =>
    simp only [List.foldl_cons]
    exact (global_subset_calculate_fitness allBranches acc.1 p.1 p.2).trans
      (ih (populationStep allBranches acc p))

theorem global_subset_runEvaluatorCall (allBranches g : Finset String)
    (call : EvaluatorCall) : g ⊆ runEvaluatorCall allBranches g call := by
  cases call with
  | single id e => exact global_subset_calculate_fitness allBranches g id e
  | population cid ts =>
    exact global_subset_populationFold allBranches ts (g, [])

/-- C3: within one run, across every sequence of `calculate_fitness` /
`evaluate_population` calls, the global coverage set only gains elements:
each call's post-state is a superset of its pre-state, and after any
sequence of calls the set is a superset of (hence at least as large as) the
initial one. -/
theorem global_coverage_monotone (allBranches g : Finset String)
    (calls : List EvaluatorCall) :
    (∀ call, g ⊆ runEvaluatorCall allBranches g call ∧
        g.card ≤ (runEvaluatorCall allBranches g call).card) ∧
    g ⊆ calls.foldl (runEvaluatorCall allBranches) g ∧
    g.card ≤ (calls.foldl (runEvaluatorCall allBranches) g).card := by
  have hfold : ∀ (cs : List EvaluatorCall) (s : Finset String),
      s ⊆ cs.foldl (runEvaluatorCall allBranches) s := by
    intro cs
    induction cs with
    | nil => intro s; exact subset_rfl
    | cons c cs ih =>
      intro s
      simp only [List.foldl_cons]
      exact (global_subset_runEvaluatorCall allBranches s c).trans
        (ih (runEvaluatorCall allBranches s c))
  refine ⟨fun call => ⟨global_subset_runEvaluatorCall allBranches g call, ?_⟩,
    hfold calls g, Finset.card_le_card (hfold calls g)⟩
  exact Finset.card_le_card (global_subset_runEvaluatorCall allBranches g call)

/-! ### Claim C4: scenario D, novelty-bonus asymmetry over identical candidates -/

/-- C4: with a fresh evaluator over a 2-branch universe, evaluating 5
candidates that all pass and all cover the same single branch gives every
candidate the pre-bonus base score 1/2 (so best and average are 0.5 before
any novelty bonus); the first candidate's returned fitness is 0.6 (base plus
the novelty bonus 0.2·(1/2)) and the four subsequent candidates' fitness is
0.5 (no bonus); the aggregate output fields are best 0.6 and average 0.52. -/
theorem scenario_d_evaluate_population :
    (let cfg : CFGOutput := ⟨"cfg1", [⟨1, 2, none⟩, ⟨1, 3, none⟩]⟩
    let allB := extract_all_branches cfg
    let execP : TestExecutionOutput := ⟨"t", "passed", ["1->2"]⟩
    let pop := [("c1", execP), ("c2", execP), ("c3", execP), ("c4", execP), ("c5", execP)]
    let out := (evaluate_population allB ∅ "cfg1" pop).2
    (pop.map (fun p => baseCoverageScore allB p.2) = List.replicate 5 (1/2 : ℚ)) ∧
    out.results.map (·.fitness_score) = [3/5, 1/2, 1/2, 1/2, 1/2] ∧
    out.best_fitness = 3/5 ∧ out.avg_fitness = 13/25) :=
  ⟨of_decide_eq_true (by with_unfolding_all rfl),
   of_decide_eq_true (by with_unfolding_all rfl),
   of_decide_eq_true (by with_unfolding_all rfl),
   of_decide_eq_true (by with_unfolding_all rfl)⟩

/-! ### Claim C5: single-point crossover -/

/-- C5: for parents of equal gene arity at least 2 and any cut point in
`{1 … arity−1}`, `crossover` returns a new chromosome carrying the fresh
identifier, fitness 0, and parent 1's genes before the cut followed by
parent 2's genes from the cut onward (hence parent 1's gene count); with
arity below 2 it returns parent 1 unchanged. -/
theorem crossover_spec :
    (∀ (newId : String) (point : ℕ) (p1 p2 : Chromosome),
        p1.genes.length = p2.genes.length → 2 ≤ p1.genes.length →
        1 ≤ point → point ≤ p1.genes.length - 1 →
        crossover newId point p1 p2 =
          ⟨newId, p1.genes.take point ++ p2.genes.drop point, 0⟩ ∧
        (crossover newId point p1 p2).genes.length = p1.genes.length) ∧
    (∀ (newId : String) (point : ℕ) (p1 p2 : Chromosome),
        p1.genes.length < 2 → crossover newId point p1 p2 = p1) := by
  constructor
  · intro newId point p1 p2 harity h2 hlo hhi
    have hnot : ¬ p1.genes.length < 2 := by omega
    refine ⟨by simp [crossover, hnot], ?_⟩
    simp only [crossover, hnot, if_false]
    simp only [List.length_append, List.length_take, List.length_drop]
    omega
  · intro newId point p1 p2 h
    simp [crossover, h]

/-- Closed instance of C5: a concrete crossover at cut point 1 of two
2-gene parents, and the degenerate 1-gene case. -/
theorem crossover_spec_witness :
    crossover "c" 1 ⟨"p1", [.gInt 1, .gInt 2], 0⟩ ⟨"p2", [.gInt 3, .gInt 4], 0⟩ =
      ⟨"c", [.gInt 1, .gInt 4], 0⟩ ∧
    crossover "c" 1 ⟨"q", [.gInt 7], 1⟩ ⟨"p2", [.gInt 3, .gInt 4], 0⟩ =
      ⟨"q", [.gInt 7], 1⟩ := by
  constructor
  · have h := (crossover_spec.1 "c" 1 ⟨"p1", [.gInt 1, .gInt 2], 0⟩
      ⟨"p2", [.gInt 3, .gInt 4], 0⟩ (by decide) (by decide) (by decide) (by decide)).1
    exact h.trans (by with_unfolding_all rfl)
  · exact crossover_spec.2 "c" 1 ⟨"q", [.gInt 7], 1⟩
      ⟨"p2", [.gInt 3, .gInt 4], 0⟩ (by decide)

/-! ### Claim C9: `analyze` is insensitive to the localizer's prior state -/

/-- C9: calling `analyze` twice with identical arguments (the second call
running on the state left by the first) yields outputs with identical
suspicious-line lists — same scores, same per-line counts, same order — and
identical test totals; only the analysis identifier can differ (it is a
fresh uuid, a parameter here). -/
theorem analyze_idempotent (lineCoverage : CoverageMatrix) (id1 id2 : String)
    (sourceFile : String) (testResults : List TestResult)
    (sourceLines : Option (List (Int × String))) :
    (let r1 := analyze lineCoverage id1 sourceFile testResults sourceLines
    let r2 := analyze r1.1 id2 sourceFile testResults sourceLines
    r2.2.suspicious_lines = r1.2.suspicious_lines ∧
    r2.2.total_tests = r1.2.total_tests ∧
    r2.2.passed_tests = r1.2.passed_tests ∧
    r2.2.failed_tests = r1.2.failed_tests ∧
    r2.2.source_file = r1.2.source_file) := by
  unfold analyze
  dsimp only
  by_cases h : (testResults.filter (fun t => t.status == "failed")).isEmpty <;>
    simp [h]

/-! ### Claim C10: tests with status other than passed/failed are ignored -/

theorem filter_status_passed_of_filter_union (l : List TestResult) :
    (l.filter (fun t => t.status == "passed" || t.status == "failed")).filter
      (fun t => t.status == "passed") = l.filter (fun t => t.status == "passed") := by
  rw [List.filter_filter]
  apply List.filter_congr
  intro t ht
  cases h : (t.status == "passed") <;> simp [h]

theorem filter_status_failed_of_filter_union (l : List TestResult) :
    (l.filter (fun t => t.status == "passed" || t.status == "failed")).filter
      (fun t => t.status == "failed") = l.filter (fun t => t.status == "failed") := by
  rw [List.filter_filter]
  apply List.filter_congr
  intro t ht
  cases h : (t.status == "failed") <;> simp [h]

/-- C10: a test whose status is neither "passed" nor "failed" (e.g. "error")
is counted in `total_tests` but belongs to neither partition: the output's
passed/failed totals count exactly the "passed"/"failed" tests, the
suspicious lines are the same as if the other-status tests were dropped
(so they contribute to no line's coverage counts), and a spectrum whose only
non-passed tests are "error" tests takes the no-failure early exit and
returns an empty suspicious-line list. -/
theorem error_status_excluded (lineCoverage : CoverageMatrix)
    (analysisId sourceFile : String) (testResults : List TestResult)
    (sourceLines : Option (List (Int × String))) :
    (let out := (analyze lineCoverage analysisId sourceFile testResults sourceLines).2
    out.total_tests = testResults.length ∧
    out.passed_tests = (testResults.filter (fun t => t.status == "passed")).length ∧
    out.failed_tests = (testResults.filter (fun t => t.status == "failed")).length ∧
    out.suspicious_lines =
      (analyze lineCoverage analysisId sourceFile
        (testResults.filter (fun t => t.status == "passed" || t.status == "failed"))
        sourceLines).2.suspicious_lines ∧
    ((∀ t ∈ testResults, t.status ≠ "passed" → t.status = "error") →
      out.suspicious_lines = [])) := by
  refine ⟨?_, ?_, ?_, ?_, ?_⟩
  · unfold analyze
    dsimp only
    split <;> rfl
  · unfold analyze
    dsimp only
    split <;> rfl
  · unfold analyze
    dsimp only
    split
    · next hEmpty =>
      rw [List.isEmpty_iff] at hEmpty
      rw [hEmpty]
      rfl
    · rfl
  · unfold analyze
    dsimp only
    rw [filter_status_passed_of_filter_union, filter_status_failed_of_filter_union]
    split <;> rfl
  · intro herr
    have hnil : testResults.filter (fun t => t.status == "failed") = [] := by
      rw [List.filter_eq_nil_iff]
      intro t ht hfail
      have h1 : t.status = "failed" := by simpa using hfail
      have h2 : t.status ≠ "passed" := by rw [h1]; decide
      have h3 := herr t ht h2
      rw [h1] at h3
      exact absurd h3 (by decide)
    unfold analyze
    dsimp only
    rw [hnil]
    rfl

/-- Closed instance of C10: a spectrum with one "error" test and one
"passed" test takes the early exit and yields no suspicious lines. -/
theorem error_status_excluded_witness :
    (analyze [] "a1" "f.c" [⟨"t1", "error", [1, 2]⟩, ⟨"t2", "passed", [1]⟩]
      none).2.suspicious_lines = [] := by
  have h := error_status_excluded [] "a1" "f.c"
    [⟨"t1", "error", [1, 2]⟩, ⟨"t2", "passed", [1]⟩] none
  exact h.2.2.2.2 (by decide)

/-! ### Claim C6: mutation, gene count and gene types -/

theorem standardStep_length (o : MutationOracle) (rate : ℚ) (gs : List Gene) (i : ℕ) :
    (standardStep o rate gs i).length = gs.length := by
  unfold standardStep
  split
  · split <;> simp [List.length_set]
  · rfl

theorem foldl_standardStep_length (o : MutationOracle) (rate : ℚ) :
    ∀ (idxs : List ℕ) (gs : List Gene),
      (idxs.foldl (standardStep o rate) gs).length = gs.length := by
  intro idxs
  induction idxs with
  | nil => intro gs; rfl
  | cons i idxs ih =>
    intro gs
    simp only [List.foldl_cons]
    rw [ih (standardStep o rate gs i), standardStep_length]

theorem standardMutation_length (o : MutationOracle) (rate : ℚ) (genes : List Gene) :
    (standardMutation o rate genes).length = genes.length :=
  foldl_standardStep_length o rate (List.range genes.length) genes

theorem getD_set_geneType (gs : List Gene) (i j : ℕ) (a : Gene)
    (htype : geneType a = geneType (gs.getD i (Gene.gInt 0))) :
    geneType ((gs.set i a).getD j (Gene.gInt 0)) = geneType (gs.getD j (Gene.gInt 0)) := by
  by_cases hij : i = j
  · subst hij
    by_cases hlt : i < gs.length
    · rw [List.getD_eq_getElem?_getD, List.getElem?_set_self hlt]
      exact htype
    · rw [List.set_eq_of_length_le (by omega)]
  · rw [List.getD_eq_getElem?_getD, List.getElem?_set_ne hij,
      ← List.getD_eq_getElem?_getD]

theorem standardStep_geneType (o : MutationOracle) (rate : ℚ) (gs : List Gene)
    (i j : ℕ) :
    geneType ((standardStep o rate gs i).getD j (Gene.gInt 0)) =
      geneType (gs.getD j (Gene.gInt 0)) := by
  unfold standardStep
  split
  · split
    · next v heq => exact getD_set_geneType gs i j _ (by rw [heq]; rfl)
    · next v heq => exact getD_set_geneType gs i j _ (by rw [heq]; rfl)
  · rfl

theorem foldl_standardStep_geneType (o : MutationOracle) (rate : ℚ) :
    ∀ (idxs : List ℕ) (gs : List Gene) (j : ℕ),
      geneType ((idxs.foldl (standardStep o rate) gs).getD j (Gene.gInt 0)) =
        geneType (gs.getD j (Gene.gInt 0)) := by
  intro idxs
  induction idxs with
  | nil => intro gs j; rfl
  | cons i idxs ih =>
    intro gs j
    simp only [List.foldl_cons]
    rw [ih (standardStep o rate gs i) j, standardStep_geneType]

/-- C6 amended: whenever `mutate` returns (it raises only when the boundary
special mutation fires on an empty chromosome), the number of genes and the
chromosome identity are preserved; and when neither special mutation fires
(the equal-genes draw is at least 0.3 and the boundary draw at least 0.1)
the runtime type at every gene position is preserved as well.  Type
preservation does not hold in general — see the counterexample. -/
theorem mutate_count_and_types (o : MutationOracle) (c : Chromosome) (rate : ℚ)
    (c' : Chromosome) (h : mutate o c rate = some c') :
    c'.genes.length = c.genes.length ∧ c'.id = c.id ∧
    (¬ o.eq_rand < 0.3 → ¬ o.bnd_rand < 0.1 →
      ∀ j, geneType (c'.genes.getD j (Gene.gInt 0)) =
        geneType (c.genes.getD j (Gene.gInt 0))) := by
  unfold mutate at h
  dsimp only at h
  by_cases hbnd : o.bnd_rand < 0.1
  · rw [if_pos hbnd] at h
    by_cases hlen :
        (if 2 ≤ c.genes.length ∧ o.eq_rand < 0.3 then
          c.genes.set o.eq_idx2 (c.genes.getD o.eq_idx1 (Gene.gInt 0))
        else c.genes).length = 0
    · rw [if_pos hlen] at h
      exact absurd h (by simp)
    · rw [if_neg hlen] at h
      have hc' := (Option.some_inj.mp h).symm
      refine ⟨?_, by rw [hc'], fun _ habs => absurd hbnd habs⟩
      rw [hc']
      dsimp only
      rw [List.length_set]
      split <;> simp [List.length_set]
  · rw [if_neg hbnd] at h
    have hc' := (Option.some_inj.mp h).symm
    by_cases heq : 2 ≤ c.genes.length ∧ o.eq_rand < 0.3
    · refine ⟨?_, by rw [hc'], fun heq' _ _ => absurd heq.2 heq'⟩
      rw [hc']
      dsimp only
      rw [if_pos heq, standardMutation_length, List.length_set]
    · refine ⟨?_, by rw [hc'], ?_⟩
      · rw [hc']
        dsimp only
        rw [if_neg heq, standardMutation_length]
      · intro _ _ j
        rw [hc']
        dsimp only
        rw [if_neg heq]
        exact foldl_standardStep_geneType o rate (List.range c.genes.length) c.genes j

/-- Closed instance of the amended C6 theorem: with both special-mutation
draws failing their thresholds and the per-gene draw firing, a mixed
int/float chromosome keeps its gene count and position types. -/
theorem mutate_count_and_types_witness :
    (let o : MutationOracle :=
      ⟨1, 0, 0, 1, 0, 0, fun _ => 0, fun _ => 2, fun _ => 3, fun _ => 30,
        fun _ => 0, fun _ => 2, fun _ => 3, fun _ => 30, fun _ => 0⟩
    let c : Chromosome := ⟨"x", [.gInt 5, .gFloat (7/2)], 0⟩
    mutate o c 1 = some ⟨"x", [.gInt (-5), .gFloat 0], 0⟩ ∧
    (∀ c', mutate o c 1 = some c' →
      c'.genes.length = c.genes.length ∧
      geneType (c'.genes.getD 1 (Gene.gInt 0)) =
        geneType (c.genes.getD 1 (Gene.gInt 0)))) := by
  refine ⟨of_decide_eq_true (by with_unfolding_all rfl), ?_⟩
  intro c' h
  have hm := mutate_count_and_types _ _ _ _ h
  exact ⟨hm.1, hm.2.2 (by norm_num) (by norm_num) 1⟩

/-- Counterexample to C6 as stated: the boundary special mutation overwrites
a float gene with the Python int 0, changing the type at position 0 from
real to integer (and `mutate` returns normally). -/
theorem mutate_type_counterexample :
    (let o : MutationOracle :=
      ⟨1, 0, 0, 0, 0, 0, fun _ => 1, fun _ => 0, fun _ => 0, fun _ => 0,
        fun _ => 0, fun _ => 0, fun _ => 0, fun _ => 0, fun _ => 0⟩
    let c : Chromosome := ⟨"x", [.gFloat (5/2)], 0⟩
    mutate o c (1/2) = some ⟨"x", [.gInt 0], 0⟩ ∧
    geneType (Gene.gFloat (5/2)) ≠ geneType (Gene.gInt 0)) :=
  ⟨of_decide_eq_true (by with_unfolding_all rfl), by decide⟩

/-! ### Claim C7: invalid-argument behaviour of the genetic operators -/

/-- Counterexample to C7 as stated: crossover with parents of mismatched
gene arity (3 genes vs 2 genes) does not fail with an invalid-argument
error; it silently returns a child — here with 2 genes, matching neither
parent-1's arity nor performing any validation. -/
theorem mismatched_crossover_counterexample :
    crossover "child" 2 ⟨"p1", [.gInt 1, .gInt 2, .gInt 3], 0⟩
        ⟨"p2", [.gInt 4, .gInt 5], 0⟩ =
      ⟨"child", [.gInt 1, .gInt 2], 0⟩ ∧
    (crossover "child" 2 ⟨"p1", [.gInt 1, .gInt 2, .gInt 3], 0⟩
        ⟨"p2", [.gInt 4, .gInt 5], 0⟩).genes.length ≠
      (⟨"p1", [.gInt 1, .gInt 2, .gInt 3], 0⟩ : Chromosome).genes.length :=
  ⟨of_decide_eq_true (by with_unfolding_all rfl),
   of_decide_eq_true (by with_unfolding_all rfl)⟩

/-- C7 amended: tournament selection over an empty population does fail —
`random.sample` of an empty population is empty and Python's `max` raises
`ValueError` (modelled as `none`) on it; but crossover performs no arity
validation at all: for any two parents (matched or not) with at least two
genes in parent 1, it returns a chromosome built from parent-1's prefix and
parent-2's suffix without error.  Mutation takes a single chromosome, so a
gene-arity mismatch does not arise for it. -/
theorem invalid_argument_behaviour :
    (∀ sample : List Chromosome, validSample [] sample →
      tournament_selection [] sample = none) ∧
    (∀ (newId : String) (point : ℕ) (p1 p2 : Chromosome), 2 ≤ p1.genes.length →
      crossover newId point p1 p2 =
        ⟨newId, p1.genes.take point ++ p2.genes.drop point, 0⟩) := by
  constructor
  · intro sample hs
    have hlen : sample.length = 0 := by
      have := hs.1
      simpa using this
    rw [List.length_eq_zero] at hlen
    rw [hlen]
    rfl
  · intro newId point p1 p2 h2
    have hnot : ¬ p1.genes.length < 2 := by omega
    simp [crossover, hnot]

/-- Closed instance of the amended C7 theorem: selection from the empty
population with the (forced) empty sample errors, and a concrete
mismatched-arity crossover returns its spliced child. -/
theorem invalid_argument_behaviour_witness :
    tournament_selection [] [] = none ∧
    crossover "c" 1 ⟨"p1", [.gInt 1, .gInt 2, .gInt 3], 0⟩
        ⟨"p2", [.gInt 4, .gInt 5], 0⟩ =
      ⟨"c", [.gInt 1, .gInt 5], 0⟩ := by
  constructor
  · exact invalid_argument_behaviour.1 [] (by constructor <;> simp)
  · have h := invalid_argument_behaviour.2 "c" 1
      ⟨"p1", [.gInt 1, .gInt 2, .gInt 3], 0⟩ ⟨"p2", [.gInt 4, .gInt 5], 0⟩
      (by decide)
    exact h.trans (by with_unfolding_all rfl)

/-! ### Claim C8: the "clustered" recommendation -/

theorem clustered_not_mem_priorityRule (t : SuspiciousLine) (lo hi : Int) :
    Recommendation.clustered lo hi ∉ priorityRule t := by
  simp only [priorityRule]
  split_ifs <;> simp

theorem clustered_not_mem_onlyInFailedRule (top : List SuspiciousLine) (lo hi : Int) :
    Recommendation.clustered lo hi ∉ onlyInFailedRule top := by
  simp only [onlyInFailedRule]
  split_ifs <;> simp

theorem clustered_not_mem_fewTestsRule (a : FaultLocalizationOutput) (lo hi : Int) :
    Recommendation.clustered lo hi ∉ fewTestsRule a := by
  simp only [fewTestsRule]
  split_ifs <;> simp

theorem clustered_not_mem_balanceRule (a : FaultLocalizationOutput) (lo hi : Int) :
    Recommendation.clustered lo hi ∉ balanceRule a := by
  simp only [balanceRule]
  split_ifs <;> simp

theorem clustered_mem_clusteredRule (top : List SuspiciousLine) (lo hi : Int) :
    Recommendation.clustered lo hi ∈ clusteredRule top ↔
      (3 ≤ top.length ∧ are_lines_clustered ((top.take 5).map (·.line_number)) = true ∧
       lo = listMinZ ((top.take 5).map (·.line_number)) ∧
       hi = listMaxZ ((top.take 5).map (·.line_number))) := by
  simp only [clusteredRule]
  split_ifs <;> simp_all

theorem clustered_mem_generate_recommendations (analysis : FaultLocalizationOutput)
    (top : List SuspiciousLine) (lo hi : Int) :
    Recommendation.clustered lo hi ∈ generate_recommendations analysis top ↔
      (3 ≤ top.length ∧ are_lines_clustered ((top.take 5).map (·.line_number)) = true ∧
       lo = listMinZ ((top.take 5).map (·.line_number)) ∧
       hi = listMaxZ ((top.take 5).map (·.line_number))) := by
  cases top with
  | nil => simp [generate_recommendations]
  | cons t rest =>
    simp only [generate_recommendations, List.mem_append]
    simp [clustered_not_mem_priorityRule, clustered_not_mem_onlyInFailedRule,
      clustered_not_mem_fewTestsRule, clustered_not_mem_balanceRule,
      clustered_mem_clusteredRule]

/-- C8 amended: in `generate_report`, the "clustered" recommendation appears
exactly when there are at least 3 reported suspicious lines and the top 5
lines' sorted line numbers have every consecutive gap at most 5 (the code's
`_are_lines_clustered` tests the maximal consecutive gap, not the overall
range), and it names the region from the minimal to the maximal of those
line numbers.  The as-stated claim fails both because of the
at-least-3-lines guard and because a gap-wise-close chain can span a range
larger than 5 — see the counterexample. -/
theorem clustered_recommendation_iff (reportId timestamp : String)
    (analysis : FaultLocalizationOutput) (topN : ℕ) :
    (let report := generate_report reportId timestamp analysis topN
    let lineNums := ((analysis.suspicious_lines.take topN).take 5).map (·.line_number)
    ((∃ lo hi, Recommendation.clustered lo hi ∈ report.recommendations) ↔
      (3 ≤ (analysis.suspicious_lines.take topN).length ∧
        are_lines_clustered lineNums = true)) ∧
    (∀ lo hi, Recommendation.clustered lo hi ∈ report.recommendations →
      lo = listMinZ lineNums ∧ hi = listMaxZ lineNums)) := by
  simp only [generate_report]
  constructor
  · constructor
    · rintro ⟨lo, hi, h⟩
      have hc := (clustered_mem_generate_recommendations analysis
        (analysis.suspicious_lines.take topN) lo hi).mp h
      exact ⟨hc.1, hc.2.1⟩
    · rintro ⟨h1, h2⟩
      exact ⟨_, _, (clustered_mem_generate_recommendations analysis
        (analysis.suspicious_lines.take topN) _ _).mpr ⟨h1, h2, rfl, rfl⟩⟩
  · intro lo hi h
    have hc := (clustered_mem_generate_recommendations analysis
      (analysis.suspicious_lines.take topN) lo hi).mp h
    exact ⟨hc.2.2.1, hc.2.2.2⟩

/-- Counterexample to C8 as stated: with top suspicious lines 10, 15, 20
(consecutive gaps of 5 but an overall range of 10 > 5) the report does
contain the clustered recommendation, though the claim says it appears
exactly when the top lines span a range of at most 5. -/
theorem clustered_span_counterexample :
    (let analysisX : FaultLocalizationOutput :=
      ⟨"a1", "f.c", 4, 2, 2,
        [⟨"f.c", 10, "a", 1, 1, 0⟩, ⟨"f.c", 15, "b", 9/10, 1, 1⟩,
         ⟨"f.c", 20, "c", 4/5, 1, 1⟩]⟩
    analysisX.suspicious_lines ≠ [] ∧
    Recommendation.clustered 10 20 ∈
      (generate_report "r" "t" analysisX 10).recommendations ∧
    listMaxZ (((analysisX.suspicious_lines.take 10).take 5).map (·.line_number)) -
      listMinZ (((analysisX.suspicious_lines.take 10).take 5).map (·.line_number)) = 10) :=
  ⟨of_decide_eq_true (by with_unfolding_all rfl),
   of_decide_eq_true (by with_unfolding_all rfl),
   of_decide_eq_true (by with_unfolding_all rfl)⟩

/-! ### Claim C1: Tarantula score range and extremes

The lemmas characterize the coverage matrix built by
`_build_coverage_matrix`: an entry exists for a line exactly when some
passed or failed test covers it, and its counts are the total coverage hits
among passed and among failed tests. -/

theorem bumpCount_bumpCount (b : Bool) (n k : ℕ) (pf : ℕ × ℕ) :
    bumpCount b n (bumpCount b k pf) = bumpCount b (n + k) pf := by
  cases b <;> simp [bumpCount] <;> omega

theorem findCounts_addCover (b : Bool) (m : CoverageMatrix) (L L' : Int) :
    findCounts (addCover b m L) L' =
      if L' = L then some (bumpCount b 1 ((findCounts m L).getD (0, 0)))
      else findCounts m L' := by
  induction m with
  | nil =>
    simp only [addCover, findCounts, Option.getD_none, bumpCount]
    split_ifs <;> first | rfl | omega
  | cons e rest ih =>
    simp only [addCover]
    by_cases he : e.1 = L
    · rw [if_pos he]
      simp only [findCounts, he, Option.getD_some, Option.getD_none, bumpCount]
      split_ifs <;> first | rfl | omega
    · rw [if_neg he]
      simp only [findCounts, ih, Option.getD_some, Option.getD_none, bumpCount]
      split_ifs <;> first | rfl | omega

theorem findCounts_foldLines (b : Bool) (ls : List Int) (m : CoverageMatrix) (L : Int) :
    findCounts (ls.foldl (addCover b) m) L =
      if ls.count L = 0 then findCounts m L
      else some (bumpCount b (ls.count L) ((findCounts m L).getD (0, 0))) := by
  induction ls generalizing m with
  | nil => simp
  | cons x ls ih =>
    simp only [List.foldl_cons]
    rw [ih (addCover b m x), findCounts_addCover]
    by_cases hx : L = x
    · subst hx
      rw [if_pos rfl]
      rw [List.count_cons_self]
      by_cases hc : ls.count L = 0
      · rw [if_pos hc, hc]
        rw [if_neg (by omega)]
      · rw [if_neg hc, if_neg (by omega)]
        rw [Option.getD_some, bumpCount_bumpCount]
    · rw [if_neg (fun hc => hx hc)]
      rw [List.count_cons_of_ne (fun hc => hx hc)]

theorem coverCount_cons (t : TestResult) (ts : List TestResult) (L : Int) :
    coverCount (t :: ts) L = t.covered_lines.count L + coverCount ts L := by
  simp [coverCount]

theorem findCounts_foldTests (b : Bool) (tests : List TestResult)
    (m : CoverageMatrix) (L : Int) :
    findCounts (tests.foldl (addTest b) m) L =
      if coverCount tests L = 0 then findCounts m L
      else some (bumpCount b (coverCount tests L) ((findCounts m L).getD (0, 0))) := by
  induction tests generalizing m with
  | nil => simp [coverCount]
  | cons t ts ih =>
    simp only [List.foldl_cons]
    rw [ih (addTest b m t)]
    unfold addTest
    rw [findCounts_foldLines, coverCount_cons]
    by_cases h1 : t.covered_lines.count L = 0
    · rw [if_pos h1, h1, zero_add]
    · rw [if_neg h1]
      by_cases h2 : coverCount ts L = 0
      · rw [if_pos h2, h2, add_zero, if_neg h1]
      · rw [if_neg h2, if_neg (by omega), Option.getD_some, bumpCount_bumpCount]
        rw [Nat.add_comm (coverCount ts L) (t.covered_lines.count L)]

theorem findCounts_build (P F : List TestResult) (L : Int) :
    findCounts (build_coverage_matrix P F) L =
      if coverCount P L = 0 ∧ coverCount F L = 0 then none
      else some (coverCount P L, coverCount F L) := by
  unfold build_coverage_matrix
  rw [findCounts_foldTests, findCounts_foldTests]
  by_cases hP : coverCount P L = 0
  · rw [if_pos hP, hP]
    by_cases hF : coverCount F L = 0
    · rw [if_pos hF, if_pos ⟨rfl, hF⟩]
      simp [findCounts]
    · rw [if_neg hF, if_neg (fun hc => hF hc.2)]
      simp [findCounts, bumpCount]
  · rw [if_neg hP]
    by_cases hF : coverCount F L = 0
    · rw [if_pos hF, if_neg (fun hc => hP hc.1), hF]
      simp [findCounts, bumpCount]
    · rw [if_neg hF, if_neg (fun hc => hP hc.1)]
      simp [findCounts, bumpCount]

theorem keys_addCover (b : Bool) (m : CoverageMatrix) (L : Int) :
    (addCover b m L).map (·.1) =
      if L ∈ m.map (·.1) then m.map (·.1) else m.map (·.1) ++ [L] := by
  induction m with
  | nil => simp [addCover]
  | cons e rest ih =>
    simp only [addCover, List.map_cons, List.mem_cons]
    by_cases h : e.1 = L
    · rw [if_pos h]
      simp [h]
    · rw [if_neg h]
      simp only [List.map_cons, ih]
      by_cases hm : L ∈ rest.map (·.1)
      · simp [hm, (show L ≠ e.1 from fun hc => h hc.symm)]
      · simp [hm, (show L ≠ e.1 from fun hc => h hc.symm)]

theorem nodup_keys_addCover (b : Bool) (m : CoverageMatrix) (L : Int)
    (h : (m.map (·.1)).Nodup) : ((addCover b m L).map (·.1)).Nodup := by
  rw [keys_addCover]
  split_ifs with hm
  · exact h
  · simp [List.nodup_append, h, hm]

theorem nodup_keys_foldLines (b : Bool) (ls : List Int) (m : CoverageMatrix)
    (h : (m.map (·.1)).Nodup) :
    ((ls.foldl (addCover b) m).map (·.1)).Nodup := by
  induction ls generalizing m with
  | nil => exact h
  | cons x ls ih =>
    simp only [List.foldl_cons]
    exact ih (addCover b m x) (nodup_keys_addCover b m x h)

theorem nodup_keys_foldTests (b : Bool) (tests : List TestResult)
    (m : CoverageMatrix) (h : (m.map (·.1)).Nodup) :
    ((tests.foldl (addTest b) m).map (·.1)).Nodup := by
  induction tests generalizing m with
  | nil => exact h
  | cons t ts ih =>
    simp only [List.foldl_cons]
    exact ih (addTest b m t) (nodup_keys_foldLines b t.covered_lines m h)

theorem nodup_keys_build (P F : List TestResult) :
    ((build_coverage_matrix P F).map (·.1)).Nodup := by
  unfold build_coverage_matrix
  exact nodup_keys_foldTests true F _ (nodup_keys_foldTests false P [] (by simp))

theorem findCounts_of_mem :
    ∀ (m : CoverageMatrix), (m.map (·.1)).Nodup → ∀ e ∈ m, findCounts m e.1 = some e.2 := by
  intro m
  induction m with
  | nil =>
    intro _ e he
    exact absurd he (List.not_mem_nil e)
  | cons f rest ih =>
    intro hnd e he
    rw [List.map_cons] at hnd
    have hnd' := List.nodup_cons.mp hnd
    simp only [findCounts]
    rcases List.mem_cons.mp he with rfl | hr
    · rw [if_pos rfl]
    · have hne : f.1 ≠ e.1 := by
        intro hc
        exact hnd'.1 (hc ▸ List.mem_map_of_mem (·.1) hr)
      rw [if_neg hne]
      exact ih hnd'.2 e hr

theorem coverCount_eq_zero (ts : List TestResult) (L : Int)
    (h : ∀ t ∈ ts, L ∉ t.covered_lines) : coverCount ts L = 0 := by
  unfold coverCount
  apply List.sum_eq_zero
  intro x hx
  obtain ⟨t, ht, rfl⟩ := List.mem_map.mp hx
  exact List.count_eq_zero.mpr (h t ht)

theorem coverCount_pos (ts : List TestResult) (t : TestResult) (L : Int)
    (ht : t ∈ ts) (hL : L ∈ t.covered_lines) : 0 < coverCount ts L := by
  unfold coverCount
  have h1 : 0 < t.covered_lines.count L := List.count_pos_iff.mpr hL
  have h2 : t.covered_lines.count L ≤
      ((ts.map (fun t => t.covered_lines.count L))).sum :=
    List.single_le_sum (fun x _ => Nat.zero_le x) _
      (List.mem_map_of_mem (fun t => t.covered_lines.count L) ht)
  omega

theorem tarantula_frac_bounds (pf pp : ℚ) (hpf : 0 ≤ pf) (hpp : 0 ≤ pp) :
    0 ≤ (if 0 < pf + pp then pf / (pf + pp) else 0) ∧
    (if 0 < pf + pp then pf / (pf + pp) else 0) ≤ 1 := by
  split
  · next hpos =>
    exact ⟨div_nonneg hpf (le_of_lt hpos), by rw [div_le_one hpos]; linarith⟩
  · exact ⟨le_refl 0, by norm_num⟩

theorem suspiciousnessScore_bounds (tp tf p f : ℕ) :
    0 ≤ suspiciousnessScore tp tf p f ∧ suspiciousnessScore tp tf p f ≤ 1 := by
  simp only [suspiciousnessScore]
  apply tarantula_frac_bounds
  · split <;> positivity
  · split <;> positivity

theorem suspiciousnessScore_only_failed (tp tf f : ℕ) (htf : 0 < tf) (hf : 0 < f) :
    suspiciousnessScore tp tf 0 f = 1 := by
  simp only [suspiciousnessScore]
  rw [if_pos htf]
  have hpp : (if 0 < tp then (((0 : ℕ) : ℚ)) / tp else 0) = 0 := by
    split <;> simp
  rw [hpp, add_zero]
  have hpos : 0 < (f : ℚ) / tf :=
    div_pos (by exact_mod_cast hf) (by exact_mod_cast htf)
  rw [if_pos hpos]
  exact div_self (ne_of_gt hpos)

theorem suspiciousnessScore_no_failed (tp tf p : ℕ) :
    suspiciousnessScore tp tf p 0 = 0 := by
  simp only [suspiciousnessScore]
  have hpf : (if 0 < tf then (((0 : ℕ) : ℚ)) / tf else 0) = 0 := by
    split <;> simp
  rw [hpf, zero_add]
  have h0 : ∀ x : ℚ, (if 0 < x then (0 : ℚ) / x else 0) = 0 := fun x => by
    split <;> simp
  exact h0 _

theorem analyze_lines_of_failures (lineCoverage : CoverageMatrix)
    (analysisId sourceFile : String) (testResults : List TestResult)
    (sourceLines : Option (List (Int × String)))
    (hne : (testResults.filter (fun t => t.status == "failed")).isEmpty = false) :
    (analyze lineCoverage analysisId sourceFile testResults sourceLines).2.suspicious_lines =
      sortSuspicious (calculate_suspiciousness
        (build_coverage_matrix (testResults.filter (fun t => t.status == "passed"))
          (testResults.filter (fun t => t.status == "failed")))
        sourceFile
        (testResults.filter (fun t => t.status == "passed")).length
        (testResults.filter (fun t => t.status == "failed")).length
        sourceLines) := by
  unfold analyze
  simp [hne]

theorem matrix_entry_counts (P F : List TestResult) (e : Int × ℕ × ℕ)
    (he : e ∈ build_coverage_matrix P F) :
    e.2.1 = coverCount P e.1 ∧ e.2.2 = coverCount F e.1 ∧
    ¬(coverCount P e.1 = 0 ∧ coverCount F e.1 = 0) := by
  have hfc := findCounts_of_mem _ (nodup_keys_build P F) e he
  rw [findCounts_build] at hfc
  by_cases hz : coverCount P e.1 = 0 ∧ coverCount F e.1 = 0
  · rw [if_pos hz] at hfc
    exact absurd hfc (by simp)
  · rw [if_neg hz] at hfc
    have he2 := Option.some_inj.mp hfc
    exact ⟨by rw [← he2], by rw [← he2], hz⟩

/-- C1: for every spectrum with at least one failed test, every
suspicious-line record of `analyze` has a score in `[0, 1]`; a record whose
line is covered by no passed test but by some failed test scores exactly 1; a
record whose line is covered by no failed test scores exactly 0 (in
particular one covered only by passed tests); and a line covered by no test
at all never appears in the ranking. -/
theorem tarantula_score_properties (lineCoverage : CoverageMatrix)
    (analysisId sourceFile : String) (testResults : List TestResult)
    (sourceLines : Option (List (Int × String)))
    (hfail : ∃ t ∈ testResults, t.status = "failed") :
    (∀ sl ∈ (analyze lineCoverage analysisId sourceFile testResults
        sourceLines).2.suspicious_lines,
      0 ≤ sl.suspiciousness_score ∧ sl.suspiciousness_score ≤ 1) ∧
    (∀ sl ∈ (analyze lineCoverage analysisId sourceFile testResults
        sourceLines).2.suspicious_lines,
      (∀ t ∈ testResults, t.status = "passed" → sl.line_number ∉ t.covered_lines) →
      (∃ t ∈ testResults, t.status = "failed" ∧ sl.line_number ∈ t.covered_lines) →
      sl.suspiciousness_score = 1) ∧
    (∀ sl ∈ (analyze lineCoverage analysisId sourceFile testResults
        sourceLines).2.suspicious_lines,
      (∀ t ∈ testResults, t.status = "failed" → sl.line_number ∉ t.covered_lines) →
      sl.suspiciousness_score = 0) ∧
    (∀ L : Int, (∀ t ∈ testResults, L ∉ t.covered_lines) →
      ∀ sl ∈ (analyze lineCoverage analysisId sourceFile testResults
        sourceLines).2.suspicious_lines, sl.line_number ≠ L) := by
  obtain ⟨tw, htw, htws⟩ := hfail
  have hmemF : tw ∈ testResults.filter (fun t => t.status == "failed") :=
    List.mem_filter.mpr ⟨htw, by simp [htws]⟩
  have hne : (testResults.filter (fun t => t.status == "failed")).isEmpty = false := by
    rw [← Bool.not_eq_true, List.isEmpty_iff]
    exact List.ne_nil_of_mem hmemF
  have hFlen : 0 < (testResults.filter (fun t => t.status == "failed")).length :=
    List.length_pos.mpr (List.ne_nil_of_mem hmemF)
  have hmem : ∀ sl, sl ∈ (analyze lineCoverage analysisId sourceFile testResults
      sourceLines).2.suspicious_lines ↔
      ∃ e, e ∈ build_coverage_matrix
          (testResults.filter (fun t => t.status == "passed"))
          (testResults.filter (fun t => t.status == "failed")) ∧
        mkSuspiciousLine sourceFile
          (testResults.filter (fun t => t.status == "passed")).length
          (testResults.filter (fun t => t.status == "failed")).length
          sourceLines e = sl := by
    intro sl
    rw [analyze_lines_of_failures lineCoverage analysisId sourceFile testResults
      sourceLines hne]
    unfold sortSuspicious
    rw [List.mem_mergeSort]
    unfold calculate_suspiciousness
    exact List.mem_map
  refine ⟨?_, ?_, ?_, ?_⟩
  · intro sl hsl
    obtain ⟨e, he, heq⟩ := (hmem sl).mp hsl
    subst heq
    have hb := suspiciousnessScore_bounds
      (testResults.filter (fun t => t.status == "passed")).length
      (testResults.filter (fun t => t.status == "failed")).length e.2.1 e.2.2
    exact ⟨pyRound_nonneg hb.1, pyRound_le_one hb.2⟩
  · intro sl hsl honly hsome
    obtain ⟨e, he, heq⟩ := (hmem sl).mp hsl
    subst heq
    obtain ⟨hcP, hcF, hnz⟩ := matrix_entry_counts _ _ e he
    have hP0 : coverCount (testResults.filter (fun t => t.status == "passed")) e.1 = 0 := by
      apply coverCount_eq_zero
      intro t ht
      have hf := List.mem_filter.mp ht
      exact honly t hf.1 (by simpa using hf.2)
    obtain ⟨t, ht, hts, hcov⟩ := hsome
    have htF : t ∈ testResults.filter (fun t => t.status == "failed") :=
      List.mem_filter.mpr ⟨ht, by simp [hts]⟩
    have hFpos : 0 < coverCount (testResults.filter (fun t => t.status == "failed")) e.1 :=
      coverCount_pos _ t e.1 htF hcov
    show pyRound 4 (suspiciousnessScore _ _ e.2.1 e.2.2) = 1
    rw [hcP, hcF, hP0]
    rw [suspiciousnessScore_only_failed _ _ _ hFlen hFpos]
    exact pyRound_one 4
  · intro sl hsl honly
    obtain ⟨e, he, heq⟩ := (hmem sl).mp hsl
    subst heq
    obtain ⟨hcP, hcF, hnz⟩ := matrix_entry_counts _ _ e he
    have hF0 : coverCount (testResults.filter (fun t => t.status == "failed")) e.1 = 0 := by
      apply coverCount_eq_zero
      intro t ht
      have hf := List.mem_filter.mp ht
      exact honly t hf.1 (by simpa using hf.2)
    show pyRound 4 (suspiciousnessScore _ _ e.2.1 e.2.2) = 0
    rw [hcF, hF0]
    rw [suspiciousnessScore_no_failed]
    exact pyRound_zero 4
  · intro L hnone sl hsl
    obtain ⟨e, he, heq⟩ := (hmem sl).mp hsl
    subst heq
    obtain ⟨hcP, hcF, hnz⟩ := matrix_entry_counts _ _ e he
    show e.1 ≠ L
    intro heqL
    subst heqL
    apply hnz
    constructor
    · apply coverCount_eq_zero
      intro t ht
      exact hnone t (List.mem_filter.mp ht).1
    · apply coverCount_eq_zero
      intro t ht
      exact hnone t (List.mem_filter.mp ht).1

/-- Closed instance of C1: in the spectrum with one failed test covering
line 1 and one passed test covering line 2, line 1's record is in the
ranking, scores exactly 1, and the score is inside `[0, 1]`. -/
theorem tarantula_score_properties_witness :
    ((⟨"f.c", 1, "a", 1, 1, 0⟩ : SuspiciousLine) ∈
      (analyze [] "a1" "f.c" [⟨"t1", "failed", [1]⟩, ⟨"t2", "passed", [2]⟩]
        (some [(1, "a"), (2, "b")])).2.suspicious_lines ∧
    (⟨"f.c", 1, "a", 1, 1, 0⟩ : SuspiciousLine).suspiciousness_score = 1 ∧
    0 ≤ (⟨"f.c", 1, "a", 1, 1, 0⟩ : SuspiciousLine).suspiciousness_score ∧
    (⟨"f.c", 1, "a", 1, 1, 0⟩ : SuspiciousLine).suspiciousness_score ≤ 1) := by
  have hprops := tarantula_score_properties [] "a1" "f.c"
    [⟨"t1", "failed", [1]⟩, ⟨"t2", "passed", [2]⟩] (some [(1, "a"), (2, "b")])
    ⟨⟨"t1", "failed", [1]⟩, List.mem_cons_self _ _, rfl⟩
  have hmem : (⟨"f.c", 1, "a", 1, 1, 0⟩ : SuspiciousLine) ∈
      (analyze [] "a1" "f.c" [⟨"t1", "failed", [1]⟩, ⟨"t2", "passed", [2]⟩]
        (some [(1, "a"), (2, "b")])).2.suspicious_lines :=
    of_decide_eq_true (by with_unfolding_all rfl)
  refine ⟨hmem, ?_, ?_, ?_⟩
  · exact hprops.2.1 _ hmem (by decide)
      ⟨⟨"t1", "failed", [1]⟩, List.mem_cons_self _ _, rfl, by decide⟩
  · exact (hprops.1 _ hmem).1
  · exact (hprops.1 _ hmem).2

/-- Closed instance of the amended C8 theorem: lines 10, 11, 12 are
gap-clustered, so the clustered recommendation appears. -/
theorem clustered_recommendation_iff_witness :
    ∃ lo hi, Recommendation.clustered lo hi ∈
      (generate_report "r" "t"
        ⟨"a2", "g.c", 4, 2, 2,
          [⟨"g.c", 10, "a", 1, 1, 0⟩, ⟨"g.c", 11, "b", 9/10, 1, 1⟩,
           ⟨"g.c", 12, "c", 4/5, 1, 1⟩]⟩ 10).recommendations := by
  have h := clustered_recommendation_iff "r" "t"
    ⟨"a2", "g.c", 4, 2, 2,
      [⟨"g.c", 10, "a", 1, 1, 0⟩, ⟨"g.c", 11, "b", 9/10, 1, 1⟩,
       ⟨"g.c", 12, "c", 4/5, 1, 1⟩]⟩ 10
  exact h.1.mpr ⟨by decide, of_decide_eq_true (by with_unfolding_all rfl)⟩
